import Mathlib

/-!
# Verification of the rtop metric-history engine, quantization renderer and scheduler

Shallow embedding of the core of `rtop` (a terminal system monitor written in
Rust): the fixed-capacity metric history buffers (`src/monitor/cpu.rs`,
`src/monitor/network.rs`), the sparkline quantization renderer and meter
renderer (`src/graphics.rs`), and the multi-cadence update scheduler embedded
in `App::update` (`src/ui.rs`).

Modelling conventions:
* `f64`/`f32` samples are modelled as `ℚ` (every claim only exercises values
  and arithmetic where binary floating point is exact or the result is the
  same rational).
* `u64` byte counters are modelled as `ℕ`; Rust's `u64::saturating_sub` is
  exactly truncated subtraction on `ℕ` (no overflow is possible in a
  subtraction of in-range values).
* `Instant`/`Duration` are modelled as `ℕ` milliseconds;
  `Instant::duration_since` saturates at zero just like `ℕ` subtraction.
* A rendered row `String` is modelled as the list of glyphs pushed into it
  (`Vec<String>` becomes `List (List String)`); the Rust string is the
  concatenation of that list, and an empty string is the empty list.
-/

namespace Rtop

/-! ## MetricHistory: `VecDeque` ring buffers (src/monitor/cpu.rs, network.rs)

Every monitor keeps `VecDeque` histories pre-seeded with
`VecDeque::from(vec![fill; HISTORY_SIZE])` and updates them with
`pop_front()` followed by `push_back(v)`.  A `VecDeque` is modelled as a
`List` with the front at the head. -/

namespace MetricHistory

/-- Embeds `self.history.pop_front(); self.history.push_back(v)` — drop the oldest
element at the front and append `v` at the back. -/
def push (l : List α) (v : α) : List α := l.tail ++ [v]

/-- Push a sequence of values in order. -/
def pushAll (l : List α) (vs : List α) : List α := vs.foldl push l

@[simp] theorem pushAll_nil (l : List α) : pushAll l [] = l := rfl

@[simp] theorem pushAll_cons (l : List α) (v : α) (vs : List α) :
    pushAll l (v :: vs) = pushAll (push l v) vs := rfl

theorem length_push (l : List α) (v : α) (h : 1 ≤ l.length) :
    (push l v).length = l.length := by
  simp [push]
  omega

theorem length_pushAll (l : List α) (vs : List α) (h : 1 ≤ l.length) :
    (pushAll l vs).length = l.length := by
  induction vs generalizing l with
  | nil => rfl
  | cons v vs ih =>
      rw [pushAll_cons, ih _ (by rw [length_push l v h]; exact h)]
      exact length_push l v h

/-- FIFO characterisation: pushing `vs` into `l` (with `vs` no longer than
`l`) drops the `vs.length` oldest elements and appends `vs` at the tail. -/
theorem pushAll_eq_drop_append (l : List α) (vs : List α)
    (h : vs.length ≤ l.length) :
    pushAll l vs = l.drop vs.length ++ vs := by
  induction vs generalizing l with
  | nil => simp
  | cons v vs ih =>
      rw [pushAll_cons]
      have hlen : 1 ≤ l.length := by simp at h; omega
      have hlen' : vs.length ≤ (push l v).length := by
        rw [length_push l v hlen]; simp at h; omega
      rw [ih _ hlen']
      have htail : vs.length ≤ l.tail.length := by
        simp [List.length_tail]; simp at h; omega
      rw [push, List.drop_append_of_le_length htail]
      rw [List.drop_tail]
      simp [Nat.add_comm]

end MetricHistory

/-! ## MeterRenderer (src/graphics.rs lines 199–232)

`MeterRenderer::render` and `MeterRenderer::render_segmented` take a `u8`
value (modelled as `ℕ`; `value.min(100)` makes the embedding agree with the
source on all of `u8`'s range) and build a string of glyphs, modelled as the
list of glyphs pushed. -/

/-- Embeds `symbols::METER` -/
def meterSymbol : String := "■"

/-- The light-shade glyph `render_segmented` uses for the unfilled part. -/
def meterEmptySymbol : String := "░"

namespace MeterRenderer

/-- Embeds `MeterRenderer::render`: `value.min(100)`, `filled = width * value / 100`,
then `symbols::METER.repeat(filled)`. -/
def render (width : ℕ) (value : ℕ) : List String :=
  let value := min value 100
  let filled := width * value / 100
  List.replicate filled meterSymbol

/-- Embeds `MeterRenderer::render_segmented`: for `i` in `0..width`, push the meter
glyph when `i < filled` and the light-shade glyph otherwise. -/
def render_segmented (width : ℕ) (value : ℕ) : List String :=
  let value := min value 100
  let segments := width
  let filled := segments * value / 100
  (List.range segments).map fun i =>
    if i < filled then meterSymbol else meterEmptySymbol

theorem filled_le_width (width value : ℕ) :
    width * min value 100 / 100 ≤ width := by
  have h : width * min value 100 ≤ width * 100 :=
    Nat.mul_le_mul_left width (min_le_right _ _)
  calc width * min value 100 / 100 ≤ width * 100 / 100 := Nat.div_le_div_right h
    _ = width := Nat.mul_div_cancel width (by norm_num)

theorem range_map_ite (w f : ℕ) (A B : String) (h : f ≤ w) :
    ((List.range w).map fun i => if i < f then A else B) =
      List.replicate f A ++ List.replicate (w - f) B := by
  induction w with
  | zero =>
      have : f = 0 := Nat.le_zero.mp h
      simp [this]
  | succ w ih =>
      rw [List.range_succ, List.map_append]
      by_cases hf : f ≤ w
      · rw [ih hf]
        have : ¬ w < f := not_lt.mpr hf
        simp only [List.map_cons, List.map_nil, this, if_false]
        have hw : w + 1 - f = (w - f) + 1 := by omega
        rw [hw, List.replicate_succ' (w - f) B, List.append_assoc]
      · have hfw : f = w + 1 := by omega
        have hw : w < f := by omega
        simp only [List.map_cons, List.map_nil, hw, if_true]
        have hall : ∀ i ∈ List.range w, (if i < f then A else B) = A := by
          intro i hi
          have hiw : i < w := List.mem_range.mp hi
          have hif : i < f := by omega
          rw [if_pos hif]
        rw [List.map_congr_left hall, List.map_const', List.length_range, hfw]
        simp [List.replicate_succ' w A]

theorem render_segmented_eq (width value : ℕ) :
    render_segmented width value =
      List.replicate (width * min value 100 / 100) meterSymbol ++
      List.replicate (width - width * min value 100 / 100) meterEmptySymbol := by
  unfold render_segmented
  exact range_map_ite width _ meterSymbol meterEmptySymbol
    (filled_le_width width value)

end MeterRenderer

/-! ## NetworkMonitor (src/monitor/network.rs)

The interface byte totals read from the OS (`current_rx`, `current_tx`) are
the external input of one `update` call.  `u64::saturating_sub` is modelled
by `ℕ` subtraction, which is exactly `max (a - b) 0`. -/

/-- Rust's `u64::saturating_sub` on in-range values. -/
def saturatingSub (a b : ℕ) : ℕ := a - b

structure NetworkMonitor where
  rx_history : List ℕ
  tx_history : List ℕ
  total_rx : ℕ
  total_tx : ℕ
  last_rx : ℕ
  last_tx : ℕ
  deriving Repr, DecidableEq

namespace NetworkMonitor

/-- Embeds `HISTORY_SIZE` in src/monitor/network.rs. -/
def HISTORY_SIZE : ℕ := 61

/-- Embeds `NetworkMonitor::new`, given the initial interface totals. -/
def new (total_rx total_tx : ℕ) : NetworkMonitor :=
  { rx_history := List.replicate HISTORY_SIZE 0
    tx_history := List.replicate HISTORY_SIZE 0
    total_rx := total_rx
    total_tx := total_tx
    last_rx := total_rx
    last_tx := total_tx }

/-- Embeds `NetworkMonitor::update`, given the freshly-read interface totals. -/
def update (m : NetworkMonitor) (current_rx current_tx : ℕ) : NetworkMonitor :=
  let rx_sec := saturatingSub current_rx m.last_rx
  let tx_sec := saturatingSub current_tx m.last_tx
  { m with
    rx_history := MetricHistory.push m.rx_history rx_sec
    tx_history := MetricHistory.push m.tx_history tx_sec
    last_rx := current_rx
    last_tx := current_tx
    total_rx := current_rx
    total_tx := current_tx }

end NetworkMonitor

/-! ## Quantization and GraphRenderer (src/graphics.rs lines 93–196) -/

/-- Rust's `f64::round`: nearest integer, ties round away from zero. -/
def rustRound (q : ℚ) : ℤ :=
  if 0 ≤ q then ⌊q + 1 / 2⌋ else ⌈q - 1 / 2⌉

/-- Rust's saturating `as usize` cast of a rounded value: negative values
become `0` (the `usize::MAX` end is never reached here). -/
def rustToUsize (i : ℤ) : ℕ := i.toNat

/-- Embeds `f64::clamp(0.0, 100.0)`. -/
def clamp100 (v : ℚ) : ℚ := min (max v 0) 100

/-- Embeds `GraphSymbol` (src/graphics.rs line 95). -/
inductive GraphSymbol where
  | braille
  | block
  | tty
  deriving Repr, DecidableEq

/-- Embeds `symbols::BRAILLE_UP` -/
def BRAILLE_UP : List String :=
  [" ", "⢀", "⢠", "⢰", "⢸",
   "⡀", "⣀", "⣠", "⣰", "⣸",
   "⡄", "⣄", "⣤", "⣴", "⣼",
   "⡆", "⣆", "⣦", "⣶", "⣾",
   "⡇", "⣇", "⣧", "⣷", "⣿"]

/-- Embeds `symbols::BRAILLE_DOWN` -/
def BRAILLE_DOWN : List String :=
  [" ", "⠈", "⠘", "⠸", "⢸",
   "⠁", "⠉", "⠙", "⠹", "⢹",
   "⠃", "⠋", "⠛", "⠻", "⢻",
   "⠇", "⠏", "⠟", "⠿", "⢿",
   "⡇", "⡏", "⡟", "⡿", "⣿"]

/-- Embeds `symbols::BLOCK_UP` -/
def BLOCK_UP : List String :=
  [" ", "▗", "▗", "▐", "▐",
   "▖", "▄", "▄", "▟", "▟",
   "▖", "▄", "▄", "▟", "▟",
   "▌", "▙", "▙", "█", "█",
   "▌", "▙", "▙", "█", "█"]

/-- Embeds `symbols::BLOCK_DOWN` -/
def BLOCK_DOWN : List String :=
  [" ", "▝", "▝", "▐", "▐",
   "▘", "▀", "▀", "▜", "▜",
   "▘", "▀", "▀", "▜", "▜",
   "▌", "▛", "▛", "█", "█",
   "▌", "▛", "▛", "█", "█"]

/-- Embeds `symbols::TTY_UP` -/
def TTY_UP : List String :=
  [" ", "░", "░", "▒", "▒",
   "░", "░", "▒", "▒", "█",
   "░", "▒", "▒", "▒", "█",
   "▒", "▒", "▒", "█", "█",
   "▒", "█", "█", "█", "█"]

/-- Embeds `symbols::TTY_DOWN` -/
def TTY_DOWN : List String :=
  [" ", "░", "░", "▒", "▒",
   "░", "░", "▒", "▒", "█",
   "░", "▒", "▒", "▒", "█",
   "▒", "▒", "▒", "█", "█",
   "▒", "█", "█", "█", "█"]

/-- Embeds `GraphSymbol::get_symbols`. -/
def GraphSymbol.get_symbols : GraphSymbol → Bool → List String
  | .braille, false => BRAILLE_UP
  | .braille, true => BRAILLE_DOWN
  | .block, false => BLOCK_UP
  | .block, true => BLOCK_DOWN
  | .tty, false => TTY_UP
  | .tty, true => TTY_DOWN

/-- The blank glyph, used as the (unreachable) out-of-range default of the
25-entry table lookup. -/
def blankGlyph : String := " "

/-- Embeds `GraphRenderer` (src/graphics.rs line 115). -/
structure GraphRenderer where
  width : ℕ
  height : ℕ
  symbol : GraphSymbol
  inverted : Bool
  no_zero : Bool

/-- Embeds `GraphRenderer::new` — always sets `no_zero: true`. -/
def GraphRenderer.new (width height : ℕ) (symbol : GraphSymbol)
    (inverted : Bool) : GraphRenderer :=
  { width := width, height := height, symbol := symbol,
    inverted := inverted, no_zero := true }

/-- Embeds `GraphRenderer::value_to_symbol_index` (src/graphics.rs lines 183–195),
with the renderer's `no_zero` flag passed explicitly. -/
def value_to_symbol_index (no_zero : Bool) (value cur_low cur_high : ℚ) : ℕ :=
  let clamp_min : ℕ := if no_zero = true ∧ 0 < value then 1 else 0
  if cur_high ≤ value then 4
  else if value ≤ cur_low then clamp_min
  else
    let range := cur_high - cur_low
    let normalized := (value - cur_low) / range * 4
    min (max (rustToUsize (rustRound normalized)) clamp_min) 4

/-- Row band upper bound `cur_high` for display row `h`
(src/graphics.rs lines 157–161); `height - h` is `usize` subtraction. -/
def curHigh (height h : ℕ) : ℚ :=
  if 1 < height then 100 * ((height - h : ℕ) : ℚ) / (height : ℚ) else 100

/-- Row band lower bound `cur_low` for display row `h`
(src/graphics.rs lines 162–166). -/
def curLow (height h : ℕ) : ℚ :=
  if 1 < height then 100 * ((height - (h + 1) : ℕ) : ℚ) / (height : ℚ) else 0

/-- Group the retained (already clamped) samples into the consecutive pairs
the loop at src/graphics.rs line 151 steps through; an odd trailing sample
is paired with itself (`v2` duplicates `v1`). -/
def toPairs : List ℚ → List (ℚ × ℚ)
  | [] => []
  | [a] => [(a, a)]
  | a :: b :: rest => (a, b) :: toPairs rest

/-- One glyph of row `h` for a clamped sample pair: the two quantization
indices are combined as `idx1 * 5 + idx2`, clamped to `0..=24`, and looked
up in the 25-entry table (src/graphics.rs lines 168–174). -/
def renderCell (r : GraphRenderer) (h : ℕ) (p : ℚ × ℚ) : String :=
  let cur_high := curHigh r.height h
  let cur_low := curLow r.height h
  let idx1 := value_to_symbol_index r.no_zero p.1 cur_low cur_high
  let idx2 := value_to_symbol_index r.no_zero p.2 cur_low cur_high
  let symbol_idx := min (idx1 * 5 + idx2) 24
  (r.symbol.get_symbols r.inverted).getD symbol_idx blankGlyph

/-- Embeds `GraphRenderer::render` (src/graphics.rs lines 136–181).  The Rust loop
pushes, for each sample pair, one glyph onto each of the `height` row
strings; a row string is modelled as its glyph list, so each row is the map
of its cell function over the pair list.  (`last_value` in the source is
written but never read.) -/
def GraphRenderer.render (r : GraphRenderer) (data : List ℚ) : List (List String) :=
  let data_len := data.length
  let data_offset := if data_len > r.width * 2 then data_len - r.width * 2 else 0
  let ps := toPairs ((data.drop data_offset).map clamp100)
  (List.range r.height).map fun h => ps.map (renderCell r h)

/-! ### Quantization lemmas -/

theorem rustRound_mono {p q : ℚ} (h : p ≤ q) : rustRound p ≤ rustRound q := by
  unfold rustRound
  split_ifs with hp hq hq
  · exact Int.floor_le_floor (by linarith)
  · linarith
  · have h1 : (⌈p - 1 / 2⌉ : ℤ) ≤ 0 := by
      rw [Int.ceil_le]
      push_neg at hp
      push_cast
      linarith
    have h2 : (0 : ℤ) ≤ ⌊q + 1 / 2⌋ := Int.floor_nonneg.mpr (by linarith)
    omega
  · exact Int.ceil_le_ceil (by linarith)

/-- The `clamp_min` floor index of src/graphics.rs line 184 is monotone in
the sample value. -/
theorem clampMin_mono (nz : Bool) {a b : ℚ} (h : a ≤ b) :
    (if nz = true ∧ 0 < a then (1 : ℕ) else 0) ≤
      (if nz = true ∧ 0 < b then (1 : ℕ) else 0) := by
  split_ifs with h1 h2 h2
  · exact le_refl 1
  · exact absurd ⟨h1.1, lt_of_lt_of_le h1.2 h⟩ h2
  · exact Nat.zero_le 1
  · exact le_refl 0

theorem value_to_symbol_index_le_four (nz : Bool) (value cur_low cur_high : ℚ) :
    value_to_symbol_index nz value cur_low cur_high ≤ 4 := by
  simp only [value_to_symbol_index]
  split_ifs <;> omega

theorem value_to_symbol_index_ge_clamp_min (nz : Bool) (value cur_low cur_high : ℚ) :
    (if nz = true ∧ 0 < value then (1 : ℕ) else 0) ≤
      value_to_symbol_index nz value cur_low cur_high := by
  simp only [value_to_symbol_index]
  split_ifs <;> omega

theorem value_to_symbol_index_mono (nz : Bool) {cur_low cur_high a b : ℚ}
    (hband : cur_low < cur_high) (hab : a ≤ b) :
    value_to_symbol_index nz a cur_low cur_high ≤
      value_to_symbol_index nz b cur_low cur_high := by
  by_cases hb1 : cur_high ≤ b
  · have hrhs : value_to_symbol_index nz b cur_low cur_high = 4 := by
      simp only [value_to_symbol_index]
      rw [if_pos hb1]
    rw [hrhs]
    exact value_to_symbol_index_le_four nz a cur_low cur_high
  · have ha1 : ¬ cur_high ≤ a := fun hc => hb1 (le_trans hc hab)
    by_cases hb2 : b ≤ cur_low
    · have ha2 : a ≤ cur_low := le_trans hab hb2
      simp only [value_to_symbol_index]
      rw [if_neg ha1, if_pos ha2, if_neg hb1, if_pos hb2]
      exact clampMin_mono nz hab
    · by_cases ha2 : a ≤ cur_low
      · have hlhs : value_to_symbol_index nz a cur_low cur_high =
            (if nz = true ∧ 0 < a then (1 : ℕ) else 0) := by
          simp only [value_to_symbol_index]
          rw [if_neg ha1, if_pos ha2]
        rw [hlhs]
        exact le_trans (clampMin_mono nz hab)
          (value_to_symbol_index_ge_clamp_min nz b cur_low cur_high)
      · simp only [value_to_symbol_index]
        rw [if_neg ha1, if_neg ha2, if_neg hb1, if_neg hb2]
        have hr : (0 : ℚ) < cur_high - cur_low := by linarith
        have hnorm : (a - cur_low) / (cur_high - cur_low) * 4 ≤
            (b - cur_low) / (cur_high - cur_low) * 4 :=
          mul_le_mul_of_nonneg_right
            ((div_le_div_iff_of_pos_right hr).mpr (by linarith)) (by norm_num)
        have hx : rustToUsize (rustRound ((a - cur_low) / (cur_high - cur_low) * 4)) ≤
            rustToUsize (rustRound ((b - cur_low) / (cur_high - cur_low) * 4)) :=
          Int.toNat_le_toNat (rustRound_mono hnorm)
        exact min_le_min (max_le_max hx (clampMin_mono nz hab)) (le_refl 4)

/-! ### Renderer shape lemmas -/

theorem toPairs_length (l : List ℚ) : (toPairs l).length = (l.length + 1) / 2 := by
  induction l using toPairs.induct with
  | case1 => rfl
  | case2 a => simp [toPairs]
  | case3 a b rest ih =>
      simp only [toPairs, List.length_cons, ih]
      omega

/-- The drop-offset computed at src/graphics.rs lines 142–146 equals
truncated subtraction. -/
theorem data_offset_eq (L w : ℕ) :
    (if L > w * 2 then L - w * 2 else 0) = L - w * 2 := by
  split_ifs <;> omega

theorem render_length (r : GraphRenderer) (data : List ℚ) :
    (GraphRenderer.render r data).length = r.height := by
  simp [GraphRenderer.render]

theorem render_row_length (r : GraphRenderer) (data : List ℚ) :
    ∀ row ∈ GraphRenderer.render r data,
      row.length = (min data.length (2 * r.width) + 1) / 2 := by
  intro row hrow
  simp only [GraphRenderer.render, List.mem_map, List.mem_range] at hrow
  obtain ⟨h, -, rfl⟩ := hrow
  rw [List.length_map, toPairs_length, List.length_map, List.length_drop,
    data_offset_eq]
  congr 1
  omega

/-- Lemma: `render` depends only on the last `min L (2*width)` samples: rendering
`data` renders exactly the same rows as rendering its window. -/
theorem render_window (r : GraphRenderer) (data : List ℚ) :
    GraphRenderer.render r data =
      GraphRenderer.render r (data.drop (data.length - 2 * r.width)) := by
  simp only [GraphRenderer.render, data_offset_eq, List.length_drop]
  have h1 : 2 * r.width = r.width * 2 := Nat.mul_comm 2 r.width
  rw [h1]
  have h2 : data.length - (data.length - r.width * 2) - r.width * 2 = 0 := by
    omega
  rw [h2, List.drop_zero]

/-! ## CpuMonitor (src/monitor/cpu.rs) -/

/-- Embeds `CpuMonitor`: one `VecDeque<f32>` history per core. -/
structure CpuMonitor where
  history : List (List ℚ)

/-- Embeds `CpuMonitor::update`, given the per-core usages read from the OS: for
each `(i, cpu)` with `i < self.history.len()`, pop the front of history `i`
and push the new usage at the back. -/
def CpuMonitor.update (m : CpuMonitor) (usages : List ℚ) : CpuMonitor :=
  { history := m.history.mapIdx fun i h =>
      match usages.get? i with
      | some u => MetricHistory.push h u
      | none => h }

/-! ## App::update — the multi-cadence scheduler (src/ui.rs lines 105–138)

The `App` state keeps the fields `App::update` reads or writes:
`paused`, the single shared `last_update : Instant` (milliseconds), the
three cadences obtained from `config.cpu_refresh_duration()`,
`config.disk_refresh_duration()` and `config.process_refresh_duration()`,
the GPU availability flag `gpu_monitor.is_enabled()`, the fully modelled
cpu and network monitors, and — for each remaining collaborator whose
internal sampling is out of scope — a counter of how many times its opaque
`update()` has been invoked. -/

structure Env where
  cpu_usages : List ℚ
  current_rx : ℕ
  current_tx : ℕ

structure App where
  paused : Bool
  last_update : ℕ
  cpu_refresh : ℕ
  disk_refresh : ℕ
  process_refresh : ℕ
  gpu_enabled : Bool
  cpu_monitor : CpuMonitor
  network_monitor : NetworkMonitor
  memory_updates : ℕ
  ping_updates : ℕ
  temp_updates : ℕ
  system_updates : ℕ
  battery_updates : ℕ
  diskio_updates : ℕ
  gpu_updates : ℕ
  disk_updates : ℕ
  process_updates : ℕ

/-- Embeds `App::update` (src/ui.rs lines 105–138).  `now` is the current instant
and `env` carries the samples the OS would return this tick.
`Instant::duration_since` saturates at zero exactly like `ℕ` subtraction. -/
def App.update (s : App) (now : ℕ) (env : Env) : App :=
  if s.paused then s
  else
    let elapsed := now - s.last_update
    if s.cpu_refresh ≤ elapsed then
      { s with
        cpu_monitor := s.cpu_monitor.update env.cpu_usages
        memory_updates := s.memory_updates + 1
        network_monitor := s.network_monitor.update env.current_rx env.current_tx
        ping_updates := s.ping_updates + 1
        temp_updates := s.temp_updates + 1
        system_updates := s.system_updates + 1
        battery_updates := s.battery_updates + 1
        diskio_updates := s.diskio_updates + 1
        gpu_updates := if s.gpu_enabled then s.gpu_updates + 1 else s.gpu_updates
        disk_updates :=
          if s.disk_refresh ≤ elapsed then s.disk_updates + 1 else s.disk_updates
        process_updates :=
          if s.process_refresh ≤ elapsed then s.process_updates + 1
          else s.process_updates
        last_update := now }
    else s

/-- A concrete app state: not paused, `last_update = 0`, cpu cadence 1000 ms,
disk cadence 5000 ms, process cadence 5000 ms (the shipped defaults'
shape), GPU absent, empty cpu history set, fresh network monitor, all
collaborator counters zero. -/
def app0 : App :=
  { paused := false
    last_update := 0
    cpu_refresh := 1000
    disk_refresh := 5000
    process_refresh := 5000
    gpu_enabled := false
    cpu_monitor := { history := [] }
    network_monitor := NetworkMonitor.new 0 0
    memory_updates := 0
    ping_updates := 0
    temp_updates := 0
    system_updates := 0
    battery_updates := 0
    diskio_updates := 0
    gpu_updates := 0
    disk_updates := 0
    process_updates := 0 }

/-- An environment with no samples. -/
def env0 : Env := { cpu_usages := [], current_rx := 0, current_tx := 0 }

/-- Helper: a sequence of `NetworkMonitor::update` calls preserves the
lengths of both histories, since each call only pops one front element and
pushes one back element per history. -/
theorem network_foldl_lengths (events : List (ℕ × ℕ)) (m : NetworkMonitor)
    (hrx : 1 ≤ m.rx_history.length) (htx : 1 ≤ m.tx_history.length) :
    ((events.foldl (fun m e => NetworkMonitor.update m e.1 e.2) m).rx_history).length
        = m.rx_history.length ∧
    ((events.foldl (fun m e => NetworkMonitor.update m e.1 e.2) m).tx_history).length
        = m.tx_history.length := by
  induction events generalizing m with
  | nil => exact ⟨rfl, rfl⟩
  | cons e es ih =>
      have hrx' : (NetworkMonitor.update m e.1 e.2).rx_history.length =
          m.rx_history.length := MetricHistory.length_push _ _ hrx
      have htx' : (NetworkMonitor.update m e.1 e.2).tx_history.length =
          m.tx_history.length := MetricHistory.length_push _ _ htx
      have := ih (NetworkMonitor.update m e.1 e.2)
        (by rw [hrx']; exact hrx) (by rw [htx']; exact htx)
      simp only [List.foldl_cons]
      exact ⟨this.1.trans hrx', this.2.trans htx'⟩

/-! ## Claims -/

/-- C1 (counterexample): the per-category firing rule is false of
`App::update`.  The code keeps one shared `last_update`, and the disk check
is nested inside the fast check against that shared elapsed time.  Concrete
run: cadences cpu = 1000 ms, disk = 5000 ms, start at `last_update = 0`;
update at t = 1000 (fast fires, disk does not), then update at t = 5000.
The disk category has never fired, so its own last-fired instant is the
initial 0, and 5000 - 0 ≥ 5000 makes it due under the claim's rule — yet
the code does not update the disk monitor at t = 5000 (the shared elapsed
is 4000 < 5000), while the fast category does fire at both calls. -/
theorem scheduler_per_category_counterexample :
    app0.disk_refresh ≤ 5000 - app0.last_update ∧
    (App.update app0 1000 env0).memory_updates = app0.memory_updates + 1 ∧
    (App.update app0 1000 env0).disk_updates = app0.disk_updates ∧
    (App.update (App.update app0 1000 env0) 5000 env0).memory_updates =
      (App.update app0 1000 env0).memory_updates + 1 ∧
    (App.update (App.update app0 1000 env0) 5000 env0).disk_updates =
      (App.update app0 1000 env0).disk_updates :=
  ⟨by decide, rfl, rfl, rfl, rfl⟩

/-- C1 (amended): `App::update` keeps a single shared `last_update`
timestamp.  With `elapsed = now - last_update`: if `elapsed ≥ cpu cadence`
the fast monitors (cpu, memory, network + ping, temp, system, battery,
diskio, and gpu when enabled) all update, disk additionally updates iff
`elapsed ≥ disk cadence`, process iff `elapsed ≥ process cadence` (both
evaluated only inside the fast branch), and `last_update` is set to the
actual current time `now`, so missed ticks are never caught up; if
`elapsed < cpu cadence`, nothing updates and the state is unchanged. -/
theorem scheduler_shared_timestamp (s : App) (now : ℕ) (env : Env)
    (h : s.paused = false) :
    (s.cpu_refresh ≤ now - s.last_update →
      (App.update s now env).cpu_monitor = s.cpu_monitor.update env.cpu_usages ∧
      (App.update s now env).network_monitor =
        s.network_monitor.update env.current_rx env.current_tx ∧
      (App.update s now env).memory_updates = s.memory_updates + 1 ∧
      (App.update s now env).ping_updates = s.ping_updates + 1 ∧
      (App.update s now env).temp_updates = s.temp_updates + 1 ∧
      (App.update s now env).system_updates = s.system_updates + 1 ∧
      (App.update s now env).battery_updates = s.battery_updates + 1 ∧
      (App.update s now env).diskio_updates = s.diskio_updates + 1 ∧
      (App.update s now env).gpu_updates =
        (if s.gpu_enabled then s.gpu_updates + 1 else s.gpu_updates) ∧
      (App.update s now env).disk_updates =
        (if s.disk_refresh ≤ now - s.last_update then s.disk_updates + 1
         else s.disk_updates) ∧
      (App.update s now env).process_updates =
        (if s.process_refresh ≤ now - s.last_update then s.process_updates + 1
         else s.process_updates) ∧
      (App.update s now env).last_update = now) ∧
    (¬ s.cpu_refresh ≤ now - s.last_update → App.update s now env = s) := by
  constructor <;> intro hdue <;> simp [App.update, h, hdue]

/-- Witness for the amended C1 theorem at a concrete unpaused state. -/
theorem scheduler_shared_timestamp_witness :
    (app0.cpu_refresh ≤ 1000 - app0.last_update →
      (App.update app0 1000 env0).cpu_monitor =
        app0.cpu_monitor.update env0.cpu_usages ∧
      (App.update app0 1000 env0).network_monitor =
        app0.network_monitor.update env0.current_rx env0.current_tx ∧
      (App.update app0 1000 env0).memory_updates = app0.memory_updates + 1 ∧
      (App.update app0 1000 env0).ping_updates = app0.ping_updates + 1 ∧
      (App.update app0 1000 env0).temp_updates = app0.temp_updates + 1 ∧
      (App.update app0 1000 env0).system_updates = app0.system_updates + 1 ∧
      (App.update app0 1000 env0).battery_updates = app0.battery_updates + 1 ∧
      (App.update app0 1000 env0).diskio_updates = app0.diskio_updates + 1 ∧
      (App.update app0 1000 env0).gpu_updates =
        (if app0.gpu_enabled then app0.gpu_updates + 1 else app0.gpu_updates) ∧
      (App.update app0 1000 env0).disk_updates =
        (if app0.disk_refresh ≤ 1000 - app0.last_update then app0.disk_updates + 1
         else app0.disk_updates) ∧
      (App.update app0 1000 env0).process_updates =
        (if app0.process_refresh ≤ 1000 - app0.last_update then
           app0.process_updates + 1
         else app0.process_updates) ∧
      (App.update app0 1000 env0).last_update = 1000) ∧
    (¬ app0.cpu_refresh ≤ 1000 - app0.last_update →
      App.update app0 1000 env0 = app0) :=
  scheduler_shared_timestamp app0 1000 env0 rfl

/-- C2 (counterexample): `MeterRenderer::render` does not emit
`width - filled` empty glyphs after the filled ones — for width 10 and
value 50 it emits only the 5 filled glyphs, so the total glyph count is 5,
not the claimed 10. -/
theorem meter_render_counterexample_width :
    ¬ ((MeterRenderer.render 10 50).length = 10) := by decide

/-- C2 (amended): with `filled = width * min(value, 100) / 100` (the `u8`
value is never negative, so `min` is its clamp to `[0, 100]`):
`MeterRenderer::render` emits exactly `filled` meter glyphs and nothing
else, while `MeterRenderer::render_segmented` emits `filled` meter glyphs
followed by `width - filled` light-shade glyphs, for a total glyph count of
exactly `width`. -/
theorem meter_render_glyphs (width value : ℕ) :
    MeterRenderer.render width value =
      List.replicate (width * min value 100 / 100) meterSymbol ∧
    (MeterRenderer.render width value).length = width * min value 100 / 100 ∧
    MeterRenderer.render_segmented width value =
      List.replicate (width * min value 100 / 100) meterSymbol ++
        List.replicate (width - width * min value 100 / 100) meterEmptySymbol ∧
    (MeterRenderer.render_segmented width value).length = width := by
  refine ⟨rfl, ?_, MeterRenderer.render_segmented_eq width value, ?_⟩
  · simp [MeterRenderer.render]
  · simp [MeterRenderer.render_segmented]

/-- C3: quantization boundary values for `height = 1` (row band `[0, 100]`,
as produced by `cur_low`/`cur_high` of the render loop), with the `no_zero`
flag set as `GraphRenderer::new` always does: value 100 → 4, 50 → 2,
99 → 4 (rounds up), 0 → 0, and 0.5 → 1 by the no-zero rule. -/
theorem quantization_boundary_values :
    curLow 1 0 = 0 ∧ curHigh 1 0 = 100 ∧
    (GraphRenderer.new 3 1 GraphSymbol.braille false).no_zero = true ∧
    value_to_symbol_index true 100 (curLow 1 0) (curHigh 1 0) = 4 ∧
    value_to_symbol_index true 50 (curLow 1 0) (curHigh 1 0) = 2 ∧
    value_to_symbol_index true 99 (curLow 1 0) (curHigh 1 0) = 4 ∧
    value_to_symbol_index true 0 (curLow 1 0) (curHigh 1 0) = 0 ∧
    value_to_symbol_index true (1 / 2) (curLow 1 0) (curHigh 1 0) = 1 := by
  refine ⟨by norm_num [curLow], by norm_num [curHigh], rfl, ?_, ?_, ?_, ?_, ?_⟩ <;>
    · norm_num [value_to_symbol_index, rustRound, rustToUsize, curLow, curHigh]
      try rfl

/-- C4: quantization monotonicity — for a fixed band
`cur_low < cur_high` and any `no_zero` flag, `a ≤ b` implies
`index(a) ≤ index(b)` for `GraphRenderer::value_to_symbol_index`. -/
theorem quantization_monotone (nz : Bool) (cur_low cur_high a b : ℚ)
    (hband : cur_low < cur_high) (hab : a ≤ b) :
    value_to_symbol_index nz a cur_low cur_high ≤
      value_to_symbol_index nz b cur_low cur_high :=
  value_to_symbol_index_mono nz hband hab

/-- Witness for C4 at band `[0, 100]`, values 0 ≤ 100. -/
theorem quantization_monotone_witness :
    value_to_symbol_index true 0 0 100 ≤ value_to_symbol_index true 100 0 100 :=
  quantization_monotone true 0 100 0 100 (by norm_num) (by norm_num)

/-- C5: renderer totality on degenerate inputs — `render` of empty data
yields `height` empty rows, `render` with width 0 yields `height` empty
rows for any data, and `render` with height 0 yields no rows at all. -/
theorem render_totality_thm (r : GraphRenderer) (data : List ℚ) :
    GraphRenderer.render r [] = List.replicate r.height [] ∧
    (r.width = 0 → GraphRenderer.render r data = List.replicate r.height []) ∧
    (r.height = 0 → GraphRenderer.render r data = []) := by
  refine ⟨?_, ?_, ?_⟩
  · simp [GraphRenderer.render, toPairs, List.map_const', List.length_range]
  · intro hw
    have hdrop : data.drop
        (if data.length > r.width * 2 then data.length - r.width * 2 else 0)
          = [] := by
      rw [data_offset_eq, hw]
      simp
    simp [GraphRenderer.render, hdrop, toPairs, List.map_const', List.length_range]
  · intro hh
    simp [GraphRenderer.render, hh]

/-- Witness for C5 at concrete degenerate renderers. -/
theorem render_totality_witness :
    GraphRenderer.render (GraphRenderer.new 0 2 GraphSymbol.braille false) [5, 50]
      = List.replicate 2 [] ∧
    GraphRenderer.render (GraphRenderer.new 3 0 GraphSymbol.block true) [5, 50]
      = [] :=
  ⟨(render_totality_thm (GraphRenderer.new 0 2 GraphSymbol.braille false)
      [5, 50]).2.1 rfl,
   (render_totality_thm (GraphRenderer.new 3 0 GraphSymbol.block true)
      [5, 50]).2.2 rfl⟩

/-- C6: windowing and output shape — `render` uses only the last
`min(L, 2*width)` samples (rendering `data` equals rendering its drop-oldest
window), returns exactly `height` rows, each row carries one glyph per
processed pair, i.e. `⌈min(L, 2*width) / 2⌉ = (min(L, 2*width) + 1) / 2`
glyphs, and that count is at most `width`. -/
theorem render_window_shape (r : GraphRenderer) (data : List ℚ)
    (hw : 1 ≤ r.width) (hh : 1 ≤ r.height) :
    GraphRenderer.render r data =
      GraphRenderer.render r (data.drop (data.length - 2 * r.width)) ∧
    (GraphRenderer.render r data).length = r.height ∧
    (∀ row ∈ GraphRenderer.render r data,
        row.length = (min data.length (2 * r.width) + 1) / 2) ∧
    (min data.length (2 * r.width) + 1) / 2 ≤ r.width :=
  ⟨render_window r data, render_length r data, render_row_length r data, by omega⟩

/-- Witness for C6: the spec's windowing example — width 3, height 1, ten
samples of 42; only the last 6 are used and each row has 3 glyph columns. -/
theorem render_window_shape_witness :
    GraphRenderer.render (GraphRenderer.new 3 1 GraphSymbol.braille false)
        (List.replicate 10 42) =
      GraphRenderer.render (GraphRenderer.new 3 1 GraphSymbol.braille false)
        ((List.replicate 10 42).drop 4) ∧
    (GraphRenderer.render (GraphRenderer.new 3 1 GraphSymbol.braille false)
        (List.replicate 10 42)).length = 1 ∧
    (∀ row ∈ GraphRenderer.render (GraphRenderer.new 3 1 GraphSymbol.braille false)
        (List.replicate 10 42), row.length = 3) ∧
    (3 : ℕ) ≤ 3 :=
  render_window_shape (GraphRenderer.new 3 1 GraphSymbol.braille false)
    (List.replicate 10 42) (by decide) (by decide)

/-- C7: ring invariant — a history buffer constructed with capacity `C ≥ 1`
(pre-seeded with the fill value) has length `C`, and its length is still
`C` after any sequence of pushes; instantiated for the network monitor,
whose two histories keep length `HISTORY_SIZE` across any sequence of
`update` calls after construction. -/
theorem ring_invariant (C : ℕ) (hC : 1 ≤ C) (fill : ℚ) (vs : List ℚ)
    (rx tx : ℕ) (events : List (ℕ × ℕ)) :
    (List.replicate C fill).length = C ∧
    (MetricHistory.pushAll (List.replicate C fill) vs).length = C ∧
    ((events.foldl (fun m e => NetworkMonitor.update m e.1 e.2)
        (NetworkMonitor.new rx tx)).rx_history).length =
      NetworkMonitor.HISTORY_SIZE ∧
    ((events.foldl (fun m e => NetworkMonitor.update m e.1 e.2)
        (NetworkMonitor.new rx tx)).tx_history).length =
      NetworkMonitor.HISTORY_SIZE := by
  have hlen : (List.replicate C fill).length = C := List.length_replicate C fill
  have hnet := network_foldl_lengths events (NetworkMonitor.new rx tx)
    (by simp [NetworkMonitor.new, NetworkMonitor.HISTORY_SIZE])
    (by simp [NetworkMonitor.new, NetworkMonitor.HISTORY_SIZE])
  refine ⟨hlen, ?_, ?_, ?_⟩
  · rw [MetricHistory.length_pushAll _ _ (by rw [hlen]; exact hC)]
    exact hlen
  · rw [hnet.1]
    simp [NetworkMonitor.new, NetworkMonitor.HISTORY_SIZE]
  · rw [hnet.2]
    simp [NetworkMonitor.new, NetworkMonitor.HISTORY_SIZE]

/-- Witness for C7 at capacity 5 and a concrete push/update sequence. -/
theorem ring_invariant_witness :
    (List.replicate 5 (0 : ℚ)).length = 5 ∧
    (MetricHistory.pushAll (List.replicate 5 (0 : ℚ)) [1, 2, 3]).length = 5 ∧
    (([(3, 4), (1, 2)].foldl (fun m e => NetworkMonitor.update m e.1 e.2)
        (NetworkMonitor.new 7 9)).rx_history).length =
      NetworkMonitor.HISTORY_SIZE ∧
    (([(3, 4), (1, 2)].foldl (fun m e => NetworkMonitor.update m e.1 e.2)
        (NetworkMonitor.new 7 9)).tx_history).length =
      NetworkMonitor.HISTORY_SIZE :=
  ring_invariant 5 (by norm_num) 0 [1, 2, 3] 7 9 [(3, 4), (1, 2)]

/-- C8: FIFO push semantics — pushing `vs` (with `|vs| ≤ C`) into a history
pre-filled with `C` copies of the fill value yields the last `C - |vs|`
fill entries followed by `vs` in order; and the eviction example: pushing
1..6 into a zero-filled capacity-5 history yields `[2, 3, 4, 5, 6]`. -/
theorem fifo_push (C : ℕ) (fill : ℚ) (vs : List ℚ) (h : vs.length ≤ C) :
    MetricHistory.pushAll (List.replicate C fill) vs =
      List.replicate (C - vs.length) fill ++ vs ∧
    MetricHistory.pushAll (List.replicate 5 (0 : ℚ)) [1, 2, 3, 4, 5, 6] =
      [2, 3, 4, 5, 6] := by
  constructor
  · rw [MetricHistory.pushAll_eq_drop_append _ _ (by simpa using h),
      List.drop_replicate]
  · rfl

/-- Witness for C8 at capacity 5 with three pushed values. -/
theorem fifo_push_witness :
    MetricHistory.pushAll (List.replicate 5 (0 : ℚ)) [7, 8, 9] =
      List.replicate 2 (0 : ℚ) ++ [7, 8, 9] ∧
    MetricHistory.pushAll (List.replicate 5 (0 : ℚ)) [1, 2, 3, 4, 5, 6] =
      [2, 3, 4, 5, 6] :=
  fifo_push 5 0 [7, 8, 9] (by norm_num)

/-- C9: pause frame effect — when the pause flag is set, `App::update` is a
complete no-op: it fires no category, mutates no monitor state and leaves
`last_update` unchanged; and after unpausing, an update call that is not
yet due by the ordinary elapsed-time check against the same pre-pause
`last_update` still changes nothing (no burst of catch-up fires). -/
theorem pause_frame_noop (s : App) (now : ℕ) (env : Env)
    (h : s.paused = true) :
    App.update s now env = s ∧
    (∀ now2 env2, ¬ s.cpu_refresh ≤ now2 - s.last_update →
      App.update { s with paused := false } now2 env2 =
        { s with paused := false }) := by
  constructor
  · simp [App.update, h]
  · intro now2 env2 hnd
    simp [App.update, hnd]

/-- Witness for C9 at a concrete paused state. -/
theorem pause_frame_noop_witness :
    App.update { app0 with paused := true } 99999 env0 =
      { app0 with paused := true } :=
  (pause_frame_noop { app0 with paused := true } 99999 env0 rfl).1

/-- C10: network rate samples are computed with saturating subtraction of
the previously seen totals from the current totals; when a byte counter
decreases between updates, the pushed sample is 0 (samples are `ℕ`, never
negative, and `ℕ` subtraction is exactly `u64::saturating_sub`). -/
theorem network_rate_saturating (m : NetworkMonitor)
    (current_rx current_tx : ℕ) :
    (NetworkMonitor.update m current_rx current_tx).rx_history =
      MetricHistory.push m.rx_history (saturatingSub current_rx m.last_rx) ∧
    (NetworkMonitor.update m current_rx current_tx).tx_history =
      MetricHistory.push m.tx_history (saturatingSub current_tx m.last_tx) ∧
    (current_rx < m.last_rx →
      ((NetworkMonitor.update m current_rx current_tx).rx_history).getLast?
        = some 0) ∧
    (current_tx < m.last_tx →
      ((NetworkMonitor.update m current_rx current_tx).tx_history).getLast?
        = some 0) ∧
    (NetworkMonitor.update m current_rx current_tx).last_rx = current_rx ∧
    (NetworkMonitor.update m current_rx current_tx).last_tx = current_tx := by
  refine ⟨rfl, rfl, ?_, ?_, rfl, rfl⟩
  · intro hlt
    have hz : saturatingSub current_rx m.last_rx = 0 := by
      simp only [saturatingSub]
      omega
    simp [NetworkMonitor.update, MetricHistory.push, hz, List.getLast?_concat]
  · intro hlt
    have hz : saturatingSub current_tx m.last_tx = 0 := by
      simp only [saturatingSub]
      omega
    simp [NetworkMonitor.update, MetricHistory.push, hz, List.getLast?_concat]

/-- Witness for C10: both counters decrease (4 < 10, 3 < 10), and the
pushed samples are 0. -/
theorem network_rate_saturating_witness :
    ((NetworkMonitor.update ⟨[0], [0], 0, 0, 10, 10⟩ 4 3).rx_history).getLast?
      = some 0 ∧
    ((NetworkMonitor.update ⟨[0], [0], 0, 0, 10, 10⟩ 4 3).tx_history).getLast?
      = some 0 :=
  ⟨(network_rate_saturating ⟨[0], [0], 0, 0, 10, 10⟩ 4 3).2.2.1 (by norm_num),
   (network_rate_saturating ⟨[0], [0], 0, 0, 10, 10⟩ 4 3).2.2.2.1 (by norm_num)⟩

end Rtop
